import Mathlib

/-!
Verification development for the crowd-occupancy forecasting core of this
repository.  The numeric code is embedded shallowly: JavaScript numbers are
modelled by an arbitrary linear ordered field `K` with a floor function
(instantiated at `ℚ` for executable witnesses and at `ℝ` where the code uses
the transcendental functions `Math.log1p` / `Math.expm1`).  All values that
the programs manipulate are finite in this model, so `map(Number)` and
`Number.isFinite` filters are the identity and `Infinity` sentinels are
modelled by `Option`.
-/

section GenericDefs

variable {K : Type} [LinearOrderedField K] [FloorRing K]

/-- JavaScript `Math.round`: round half toward positive infinity. -/
def jsRound (x : K) : ℤ := ⌊x + 1/2⌋

/-- `percentile(values, p)` from `predictiveAnalysis/src/model/preprocess.js`.
`[...values].sort((a,b) => a-b)` sorts numerically ascending; it is modelled
by an ascending (stable) insertion sort.  `rank = (p/100)*(length-1)`,
`lo = Math.floor(rank)`, `hi = Math.ceil(rank)`; if they agree return `v[lo]`,
otherwise interpolate linearly.  For `p ∈ [0,100]` the rank is nonnegative, so
the `Int.toNat` coercions below are faithful to the JS array indexing. -/
def percentile (values : List K) (p : K) : K :=
  if values.length = 0 then 0
  else
    let v := List.insertionSort (· ≤ ·) values
    let rank := p / 100 * ((values.length : K) - 1)
    if ⌊rank⌋ = ⌈rank⌉ then v.getD (⌊rank⌋.toNat) 0
    else
      let w := rank - (⌊rank⌋ : K)
      v.getD (⌊rank⌋.toNat) 0 * (1 - w) + v.getD (⌈rank⌉.toNat) 0 * w

/-- `winsorize(series, lower = 5, upper = 95)` from `preprocess.js`:
compute the two percentiles of the data and clip every value into
`[lo, hi]`.  (`series.map(Number).filter(Number.isFinite)` is the identity
on exact-number series.) -/
def winsorize (series : List K) (lower upper : K) : List K :=
  let data := series
  if data.length = 0 then []
  else
    let lo := percentile data lower
    let hi := percentile data upper
    data.map (fun x => min hi (max lo x))

/-- `clip01` from `predictiveAnalysis/src/model/holt.js`:
`v => Math.max(0.01, Math.min(0.99, v))`. -/
def clip01 (v : K) : K := max (1/100) (min (99/100) v)

/-- Helper for `jsUniq`: drop elements already seen, keeping first
occurrences (the behaviour of `Array.from(new Set(xs))`). -/
def jsUniqAux (seen : List K) : List K → List K
  | [] => []
  | x :: xs => if x ∈ seen then jsUniqAux seen xs else x :: jsUniqAux (x :: seen) xs

/-- `uniq = arr => Array.from(new Set(arr.filter(Number.isFinite)))` from
`holt.js` (the finiteness filter is the identity in this model). -/
def jsUniq (l : List K) : List K := jsUniqAux [] l

/-- `initializeLevelTrend(values)` from `holt.js`: level is the first
observation, trend the average of the first `min 5 (n-1)` consecutive
differences (`0` if there are none). -/
def initializeLevelTrend (values : List K) : K × K :=
  let l0 := values.getD 0 0
  let m := min 5 (values.length - 1)
  if m = 0 then (l0, 0)
  else (l0, (∑ i ∈ Finset.range m, (values.getD (i + 1) 0 - values.getD i 0)) / (m : K))

/-- One iteration of the smoothing loop in `smoothAndScore` (`holt.js`):
state is `(l, t, sse)`; given observation `x`,
`yhat = l + phi*t`, `e = x - yhat`, `l' = a*x + (1-a)*(l + phi*t)`,
`t' = b*(l' - l) + (1-b)*phi*t`, `sse' = sse + e*e`. -/
def smoothStep (a b phi : K) (st : K × K × K) (x : K) : K × K × K :=
  let l := st.1
  let t := st.2.1
  let e := x - (l + phi * t)
  let l2 := a * x + (1 - a) * (l + phi * t)
  let t2 := b * (l2 - l) + (1 - b) * phi * t
  (l2, t2, st.2.2 + e * e)

/-- `smoothAndScore(values, a, b, phi)` from `holt.js`: initialize level and
trend, then run the one-step update over `values[1..]`, accumulating the
squared one-step residuals.  Returns `(l, t, sse)`. -/
def smoothAndScore (values : List K) (a b phi : K) : K × K × K :=
  let init := initializeLevelTrend values
  (values.drop 1).foldl (smoothStep a b phi) (init.1, init.2, 0)

/-- `hStepForecast(l, t, phi, horizon)` from `holt.js`.  `horizon` is the
already-integral `Math.max(1, Math.round(h))`, hence a natural number.
`Math.abs(phi - 1.0) < 1e-6` selects the classic (undamped) Holt formula,
otherwise the damped geometric sum is used. -/
def hStepForecast (l t phi : K) (horizon : ℕ) : K :=
  if horizon = 0 then l
  else if |phi - 1| < 1/1000000 then l + (horizon : K) * t
  else l + t * (phi * (1 - phi ^ horizon) / (1 - phi))

/-- The mutable `best` record of `holtForecast`'s grid search.  `sse = none`
models the initial `Number.POSITIVE_INFINITY` sentinel. -/
structure HoltBest (K : Type) where
  sse : Option K
  l : K
  t : K
  a : K
  b : K
  phi : K

/-- `options.phi ? [Number(options.phi)] : [0.9, 0.95, 0.98, 1.0]` from
`holt.js`; JS truthiness sends `phi = 0` to the default candidate list. -/
def phiCandidatesOf (optPhi : Option K) : List K :=
  match optPhi with
  | some p => if p = 0 then [9/10, 19/20, 49/50, 1] else [p]
  | none => [9/10, 19/20, 49/50, 1]

/-- `alphaCandidates = uniq([clip01(alpha), 0.2, 0.4, 0.6, 0.8])`. -/
def alphaCandidatesOf (alpha : K) : List K :=
  jsUniq [clip01 alpha, 2/10, 4/10, 6/10, 8/10]

/-- `betaCandidates = uniq([clip01(beta), 0.1, 0.2, 0.3, 0.4])`. -/
def betaCandidatesOf (beta : K) : List K :=
  jsUniq [clip01 beta, 1/10, 2/10, 3/10, 4/10]

/-- The cumulative squared one-step residual a candidate coefficient
triple `(a, b, phi)` scores on `data`. -/
def sseOf (data : List K) (c : K × K × K) : K :=
  (smoothAndScore data c.1 c.2.1 c.2.2).2.2

/-- Build the `best` record `{sse, l, t, a, b, phi}` from a candidate
coefficient triple, as the grid-search body of `holtForecast` does. -/
def holtMkBest (data : List K) (c : K × K × K) : HoltBest K :=
  let r := smoothAndScore data c.1 c.2.1 c.2.2
  ⟨some r.2.2, r.1, r.2.1, c.1, c.2.1, c.2.2⟩

/-- `Number.isFinite(sse) && sse < best.sse` from `holt.js`; in exact
arithmetic `sse` is always finite and `none` is the `Infinity` sentinel. -/
def beats (x : K) (o : Option K) : Bool :=
  match o with
  | none => true
  | some y => decide (x < y)

/-- One step of the grid search: keep the candidate if its SSE strictly
beats the best so far. -/
def holtStep (data : List K) (best : HoltBest K) (c : K × K × K) : HoltBest K :=
  if beats (sseOf data c) best.sse then holtMkBest data c
  else best

/-- The triple nested candidate loops of `holtForecast`, flattened in the
same iteration order (`alpha` outermost, `phi` innermost). -/
def holtTriples (alpha beta : K) (optPhi : Option K) : List (K × K × K) :=
  (alphaCandidatesOf alpha).flatMap fun a =>
    (betaCandidatesOf beta).flatMap fun bb =>
      (phiCandidatesOf optPhi).map fun phi => (a, bb, phi)

/-- The grid-search portion of `holtForecast` (`holt.js` lines 59-73):
when `enableOptimize = options.optimize !== false && data.length >= 6`,
fold the candidate triples over the `Infinity`-initialized best record;
otherwise score once with the clipped provided coefficients and the last
phi candidate (`1.0` when no `options.phi` is given). -/
def holtBestFor (data : List K) (alpha beta : K) (optPhi : Option K) (optimize : Bool) :
    HoltBest K :=
  if optimize && decide (6 ≤ data.length) then
    (holtTriples alpha beta optPhi).foldl (holtStep data) ⟨none, 0, 0, alpha, beta, 1⟩
  else
    holtMkBest data (clip01 alpha, clip01 beta, (phiCandidatesOf optPhi).getLastD 1)

/-- `Math.min(clampMax, x)` where
`clampMax = Number.isFinite(options.max) ? options.max : +Infinity`. -/
def jsOptMin (optMax : Option K) (x : K) : K :=
  match optMax with
  | some m => min m x
  | none => x

/-- `holtForecast(series, h, alpha = 0.6, beta = 0.3, options = {})` from
`predictiveAnalysis/src/model/holt.js`.  Empty data forecasts `0`; fewer
than 3 points returns the last value rounded and floored at 0 (with no
capacity clamp); otherwise the (optionally grid-searched) damped-Holt state
produces an h-step forecast which is rounded and clamped into
`[0, options.max]`. -/
def holtForecast (series : List K) (h : K) (alpha beta : K)
    (optMax optPhi : Option K) (optimize : Bool) : K :=
  let data := series
  if data.length = 0 then 0
  else if data.length < 3 then ((max 0 (jsRound (data.getD (data.length - 1) 0)) : ℤ) : K)
  else
    let best := holtBestFor data alpha beta optPhi optimize
    let raw := hStepForecast best.l best.t best.phi (max 1 (jsRound h)).toNat
    max 0 (jsOptMin optMax ((jsRound raw : ℤ) : K))

end GenericDefs

section PredictorPipeline

/-- `transformLog1p(series)` from `preprocess.js`:
`series.map(x => Math.log1p(Math.max(0, x)))`, i.e. `ln(1 + max 0 x)`. -/
noncomputable def transformLog1p (series : List ℝ) : List ℝ :=
  series.map fun x => Real.log (1 + max 0 x)

/-- `inverseLog1p(value) = Math.expm1(value)` from `preprocess.js`. -/
noncomputable def inverseLog1p (value : ℝ) : ℝ :=
  Real.exp value - 1

/-- `ALPHA` default from `predictiveAnalysis/src/config.js`. -/
noncomputable def ALPHA : ℝ := 6/10

/-- `BETA` default from `config.js`. -/
noncomputable def BETA : ℝ := 3/10

/-- `WINSOR_LO` default from `config.js`. -/
noncomputable def WINSOR_LO : ℝ := 5

/-- `WINSOR_HI` default from `config.js`. -/
noncomputable def WINSOR_HI : ℝ := 95

/-- `BLEND_WEIGHT_SHORT` default from `config.js`. -/
noncomputable def BLEND_WEIGHT_SHORT : ℝ := 3/10

/-- `BLEND_WEIGHT_LONG` default from `config.js`. -/
noncomputable def BLEND_WEIGHT_LONG : ℝ := 6/10

/-- `BLEND_SWITCH_MIN` default from `config.js`. -/
noncomputable def BLEND_SWITCH_MIN : ℝ := 60

/-- The preprocessing + model + inverse-transform stage of the per-horizon
loop body of `computeOnce` (`predictiveAnalysis/src/jobs/predictor.js`):
optionally winsorize, optionally log1p-transform, run `holtForecast` with
`{max: maxCap}`, and, when on the log scale, invert via
`pred = Math.max(0, Math.round(inverseLog1p(pred)))`. -/
noncomputable def preBlendForecast (series : List ℝ) (maxCap : Option ℝ)
    (useWinsor useLog : Bool) (steps : ℕ) : ℝ :=
  let series1 := if useWinsor then winsorize series WINSOR_LO WINSOR_HI else series
  let series2 := if useLog then transformLog1p series1 else series1
  let pred0 := holtForecast series2 (steps : ℝ) ALPHA BETA maxCap none true
  if useLog then max 0 ((jsRound (inverseLog1p pred0) : ℤ) : ℝ) else pred0

/-- The horizon-dependent blend weight of `computeOnce`:
`w = steps <= BLEND_SWITCH_MIN ? BLEND_WEIGHT_SHORT : BLEND_WEIGHT_LONG`. -/
noncomputable def blendWeightFor (steps : ℕ) : ℝ :=
  if (steps : ℝ) ≤ BLEND_SWITCH_MIN then BLEND_WEIGHT_SHORT else BLEND_WEIGHT_LONG

/-- The seasonal blending stage of `computeOnce`
(`if (SEASONAL_BLEND && Number.isFinite(seasonalValue)) ...`):
`pred = Math.round(w*seasonalValue + (1-w)*pred)` with the weight above.
A missing seasonal baseline is `seasonalValue = null`, modelled as `none`. -/
noncomputable def blendSeasonal (seasonalValue : Option ℝ) (useBlend : Bool)
    (steps : ℕ) (pred : ℝ) : ℝ :=
  match seasonalValue with
  | some sv =>
      if useBlend then
        ((jsRound (blendWeightFor steps * sv + (1 - blendWeightFor steps) * pred) : ℤ) : ℝ)
      else pred
  | none => pred

/-- The final capacity clamp of `computeOnce`:
`if (Number.isFinite(maxCap)) pred = Math.min(maxCap, Math.max(0, pred))`. -/
def capClamp (maxCap : Option ℝ) (pred : ℝ) : ℝ :=
  match maxCap with
  | some c => min c (max 0 pred)
  | none => pred

/-- The per-(zone, horizon) loop body of `computeOnce`
(`predictor.js` lines 35-89), as a pure function of the zone's recent
count series, its seasonal baseline value (if any), its catalog capacity
(if known and finite), the three feature flags, and the horizon `h`:
`steps = Math.max(1, Math.round(h))`, then preprocessing + Holt forecast +
optional log inversion, then optional seasonal blend, then the final
capacity clamp.  The surrounding database reads/writes are I/O
orchestration outside this pure core. -/
noncomputable def computeOnePrediction (series : List ℝ) (seasonalValue : Option ℝ)
    (maxCap : Option ℝ) (useWinsor useLog useBlend : Bool) (h : ℝ) : ℝ :=
  let steps := (max 1 (jsRound h)).toNat
  capClamp maxCap
    (blendSeasonal seasonalValue useBlend steps
      (preBlendForecast series maxCap useWinsor useLog steps))

end PredictorPipeline

section ModelManagerDefs

/-- The state of `HoltsLinearModel`
(`analysis-backend/models/HoltsLinearModel`, inlined in
`analysis-backend/services/ModelManager.js` lines 900-1224).  `level` and
`trend` start as `null` (`none`).  History entries store
`{value, level, trend}` (timestamps are dropped from this model;
`maxHistoryLength = 50`). -/
structure HoltsLinearModel where
  alpha : ℚ
  beta : ℚ
  level : Option ℚ
  trend : Option ℚ
  isInitialized : Bool
  dataPointsProcessed : ℕ
  history : List (ℚ × Option ℚ × Option ℚ)
  deriving DecidableEq

/-- The `HoltsLinearModel` constructor: throws (`none`) unless
`0 < alpha < 1` and `0 < beta < 1`; otherwise a fresh uninitialized state. -/
def freshModel (alpha beta : ℚ) : Option HoltsLinearModel :=
  if alpha ≤ 0 ∨ 1 ≤ alpha then none
  else if beta ≤ 0 ∨ 1 ≤ beta then none
  else some ⟨alpha, beta, none, none, false, 0, []⟩

/-- `initializeModel(observation)`: level is the observation, trend `0`. -/
def HoltsLinearModel.initializeModel (m : HoltsLinearModel) (observation : ℚ) :
    HoltsLinearModel :=
  { m with level := some observation, trend := some 0, isInitialized := true }

/-- `applyHoltsUpdate(observation)`:
`L' = α*x + (1-α)*(L + T)`, `T' = β*(L' - L) + (1-β)*T`, then the trend is
hard-clamped to `[-10, 10]` (`Math.max(-10, Math.min(10, trend))`). -/
def HoltsLinearModel.applyHoltsUpdate (m : HoltsLinearModel) (observation : ℚ) :
    HoltsLinearModel :=
  let previousLevel := m.level.getD 0
  let previousTrend := m.trend.getD 0
  let level2 := m.alpha * observation + (1 - m.alpha) * (previousLevel + previousTrend)
  let trend2 := m.beta * (level2 - previousLevel) + (1 - m.beta) * previousTrend
  { m with level := some level2, trend := some (max (-10) (min 10 trend2)) }

/-- `addToHistory(observation)`: push `{value, level, trend}` and drop the
oldest entry once more than `maxHistoryLength = 50` are kept. -/
def HoltsLinearModel.addToHistory (m : HoltsLinearModel) (observation : ℚ) :
    HoltsLinearModel :=
  let h := m.history ++ [(observation, m.level, m.trend)]
  { m with history := if 50 < h.length then h.drop 1 else h }

/-- `HoltsLinearModel.update(observation)` (`ModelManager.js` lines
955-981).  The observation is a JS value: `none` models a value with
`typeof observation !== 'number'`; `some x` a finite number.  The guard
`typeof observation !== 'number' || observation < 0` throws — modelled by
returning the error message together with the unchanged state, since the
throw happens before any mutation.  Otherwise the model initializes (first
observation) or smooths, increments `dataPointsProcessed`, and records the
observation in its history. -/
def HoltsLinearModel.update (m : HoltsLinearModel) (observation : Option ℚ) :
    Option String × HoltsLinearModel :=
  match observation with
  | none => (some "Invalid observation. Must be a non-negative number.", m)
  | some x =>
      if x < 0 then (some "Invalid observation. Must be a non-negative number.", m)
      else
        let m1 := if m.isInitialized then m.applyHoltsUpdate x else m.initializeModel x
        let m2 := { m1 with dataPointsProcessed := m1.dataPointsProcessed + 1 }
        (none, m2.addToHistory x)

/-- `HoltsLinearModel.forecast(horizonMinutes)`: an uninitialized model
returns `0` (before the horizon check); a non-positive horizon throws;
otherwise `Math.max(0, Math.round(level + horizon*trend))`. -/
def HoltsLinearModel.forecast (m : HoltsLinearModel) (horizonMinutes : ℚ) :
    Except String ℚ :=
  if !m.isInitialized then .ok 0
  else if horizonMinutes ≤ 0 then .error "Invalid forecast horizon. Must be positive."
  else .ok ((max 0 (jsRound (m.level.getD 0 + horizonMinutes * m.trend.getD 0)) : ℤ) : ℚ)

/-- `HoltsLinearModel.getConfidence(horizonMinutes)`: base
`0.95 - horizon*0.01`, minus `0.1` when `|trend| > 2`, minus `0.2` when
fewer than 5 points were processed, clamped into `[0.5, 0.95]`. -/
def HoltsLinearModel.getConfidence (m : HoltsLinearModel) (horizonMinutes : ℚ) : ℚ :=
  let c0 := 95/100 - horizonMinutes * 1/100
  let c1 := if 2 < |m.trend.getD 0| then c0 - 1/10 else c0
  let c2 := if m.dataPointsProcessed < 5 then c1 - 2/10 else c1
  max (5/10) (min (95/100) c2)

/-- A zone/building configuration record as used by `ModelManager`
(`{id, name, type, capacity}`). -/
structure BuildingConfig where
  id : String
  name : String
  btype : Option String
  capacity : ℚ
  deriving DecidableEq

/-- Association list lookup modelling JS `Map.get` (insertion-ordered). -/
def lookupA {κ β : Type} [DecidableEq κ] (k : κ) : List (κ × β) → Option β
  | [] => none
  | (k', v) :: t => if k' = k then some v else lookupA k t

/-- Association list insert modelling JS `Map.set`: an existing key is
updated in place (its position preserved); a new key is appended. -/
def insertA {κ β : Type} [DecidableEq κ] (k : κ) (v : β) :
    List (κ × β) → List (κ × β)
  | [] => [(k, v)]
  | (k', v') :: t => if k' = k then (k, v) :: t else (k', v') :: insertA k v t

/-- `ModelManager` state: `models` and `buildingConfigs`, both JS `Map`s. -/
structure ModelManager where
  models : List (String × HoltsLinearModel)
  buildingConfigs : List (String × BuildingConfig)

/-- `ModelManager.getOptimalParameters(buildingType, capacity)`
(lines 88-159): base coefficients chosen by `buildingType?.toLowerCase()`,
scaled by `0.9` for `capacity > 500` or `1.1` for `capacity < 50`, then
clamped into `alpha ∈ [0.1, 0.4]`, `beta ∈ [0.05, 0.3]`. -/
def getOptimalParameters (buildingType : Option String) (capacity : ℚ) : ℚ × ℚ :=
  let base : ℚ × ℚ :=
    match buildingType.map String.toLower with
    | some "lecture" => (15/100, 8/100)
    | some "lecture_hall" => (15/100, 8/100)
    | some "lab" => (25/100, 12/100)
    | some "computer_lab" => (25/100, 12/100)
    | some "library" => (18/100, 15/100)
    | some "study_area" => (18/100, 15/100)
    | some "cafeteria" => (3/10, 1/10)
    | some "dining" => (3/10, 1/10)
    | some "auditorium" => (2/10, 5/100)
    | some "hall" => (2/10, 5/100)
    | _ => (2/10, 1/10)
  let adj : ℚ × ℚ :=
    if 500 < capacity then (base.1 * 9/10, base.2 * 9/10)
    else if capacity < 50 then (base.1 * 11/10, base.2 * 11/10)
    else base
  (max (1/10) (min (4/10) adj.1), max (5/100) (min (3/10) adj.2))

/-- `ModelManager.initializeBuilding(building)` (lines 60-86): store the
configuration, build a model with the optimal parameters for its type and
capacity, and register it.  The database restore (`loadModelState`) is
external I/O whose failure is swallowed by a `try/catch`, so the model
starts fresh here.  `none` models a constructor throw (never reached for
clamped parameters). -/
def ModelManager.initializeBuilding (mgr : ModelManager) (building : BuildingConfig) :
    Option ModelManager :=
  let cfgs := insertA building.id building mgr.buildingConfigs
  let params := getOptimalParameters building.btype building.capacity
  match freshModel params.1 params.2 with
  | none => none
  | some model =>
      some { models := insertA building.id model mgr.models, buildingConfigs := cfgs }

/-- The fallback configuration used by `ModelManager.updateModel` for an
unknown zone: `{id, name: `Building id`, type: 'academic', capacity: 200}`. -/
def fallbackConfigFor (buildingId : String) : BuildingConfig :=
  ⟨buildingId, "Building " ++ buildingId, some "academic", 200⟩

/-- `ModelManager.updateModel(buildingId, crowdCount)` (lines 169-194).
If no model exists, dynamically register the zone using the stored
configuration or the fallback, then update the (now existing) model.  The
`saveModelAsync` call is fire-and-forget persistence and does not affect
the returned state.  The first component is the thrown error, if any. -/
def ModelManager.updateModel (mgr : ModelManager) (buildingId : String)
    (crowdCount : Option ℚ) : Option String × ModelManager :=
  match lookupA buildingId mgr.models with
  | some model =>
      let r := model.update crowdCount
      (r.1, { mgr with models := insertA buildingId r.2 mgr.models })
  | none =>
      let fallbackConfig := (lookupA buildingId mgr.buildingConfigs).getD
        (fallbackConfigFor buildingId)
      match mgr.initializeBuilding fallbackConfig with
      | none => (some "invalid smoothing parameter", mgr)
      | some mgr2 =>
          match lookupA buildingId mgr2.models with
          | none => (some ("Model not found for building: " ++ buildingId), mgr2)
          | some model =>
              let r := model.update crowdCount
              (r.1, { mgr2 with models := insertA buildingId r.2 mgr2.models })

/-- The record returned by `ModelManager.getPrediction`. -/
structure PredictionOut where
  buildingId : String
  prediction : ℚ
  confidence : ℚ
  horizon : ℚ
  level : Option ℚ
  trend : Option ℚ
  dataPoints : ℕ

/-- `ModelManager.getPrediction(buildingId, horizonMinutes = 15)` (lines
203-230): throws when no model exists; otherwise forecasts, computes the
confidence, and constrains the prediction by
`Math.min(prediction, building?.capacity || prediction)` (a falsy —
missing or zero — capacity leaves the prediction unconstrained). -/
def ModelManager.getPrediction (mgr : ModelManager) (buildingId : String)
    (horizonMinutes : ℚ) : Except String PredictionOut :=
  match lookupA buildingId mgr.models with
  | none => .error ("Model not found for building: " ++ buildingId)
  | some model =>
      match model.forecast horizonMinutes with
      | .error e => .error e
      | .ok prediction =>
          let cap := match lookupA buildingId mgr.buildingConfigs with
            | some building => if building.capacity = 0 then prediction else building.capacity
            | none => prediction
          .ok ⟨buildingId, min prediction cap, model.getConfidence horizonMinutes,
               horizonMinutes, model.level, model.trend, model.dataPointsProcessed⟩

end ModelManagerDefs

section PredictionEngineCache

/-- A prediction record as cached by `PredictionEngine`
(only the fields the cache logic reads are kept). -/
structure PredRec where
  buildingId : String
  horizon : ℕ
  predicted : ℚ
  deriving DecidableEq

/-- An entry of `PredictionEngine.predictionCache`:
`{timestamp: new Date(), predictions: groupedPredictions}`.  Times are in
milliseconds since the epoch, as returned by `Date.getTime()`. -/
structure CacheEntry where
  timestamp : ℚ
  predictions : List (String × PredRec)
  deriving DecidableEq

/-- `PredictionEngine.generateCacheKey(timestamp)`: the timestamp rounded
down to the enclosing 5-minute bucket (minutes floored to a multiple of 5,
seconds and milliseconds zeroed); the ISO string of that instant is in
bijection with the bucket index `⌊ms / 300000⌋`, which is used as the key. -/
def generateCacheKey (tMs : ℚ) : ℤ := ⌊tMs / 300000⌋

/-- The grouping loop of `PredictionEngine.updatePredictionCache`:
`groupedPredictions[`${pred.buildingId}_${pred.horizon}min`] = pred`. -/
def groupPredictions (predictions : List PredRec) : List (String × PredRec) :=
  predictions.foldl
    (fun g p => insertA (p.buildingId ++ "_" ++ toString p.horizon ++ "min") p g) []

/-- `PredictionEngine.updatePredictionCache(predictions)`
(`src/unnamed/part_008` lines 275-296): store the grouped batch under the
current 5-minute cache key, then, if more than 10 entries are kept, delete
the first (oldest) key. -/
def updatePredictionCache (cache : List (ℤ × CacheEntry)) (predictions : List PredRec)
    (now : ℚ) : List (ℤ × CacheEntry) :=
  let cache1 := insertA (generateCacheKey now) ⟨now, groupPredictions predictions⟩ cache
  if 10 < cache1.length then cache1.drop 1 else cache1

/-- The value returned by `getCachedPredictions`:
`{...cacheData, age}` with the age in minutes rounded to 2 decimals. -/
structure CacheHit where
  timestamp : ℚ
  predictions : List (String × PredRec)
  age : ℚ
  deriving DecidableEq

/-- `PredictionEngine.getCachedPredictions(maxAgeMinutes = 10)`
(`src/unnamed/part_008` lines 304-315): iterate over the cache map in
insertion order and return the first entry whose age
`(Date.now() - timestamp) / (1000*60)` is at most the threshold, with
`age: Math.round(age * 100) / 100`; return `null` when none qualifies. -/
def getCachedPredictions (cache : List (ℤ × CacheEntry)) (now maxAgeMinutes : ℚ) :
    Option CacheHit :=
  match cache.find? (fun kv => decide ((now - kv.2.timestamp) / 60000 ≤ maxAgeMinutes)) with
  | some kv =>
      some ⟨kv.2.timestamp, kv.2.predictions,
            ((jsRound ((now - kv.2.timestamp) / 60000 * 100) : ℤ) : ℚ) / 100⟩
  | none => none

end PredictionEngineCache

section SpecPredicates

/-- The trend-bound invariant of the object-oriented model: whenever a
trend is stored, it lies in the hard-clamp interval `[-10, 10]`. -/
def TrendOK (m : HoltsLinearModel) : Prop :=
  ∀ t, m.trend = some t → -10 ≤ t ∧ t ≤ 10

end SpecPredicates

section HelperLemmas

variable {K : Type} [LinearOrderedField K] [FloorRing K]

lemma floor_half : ⌊(1/2 : K)⌋ = 0 := by
  rw [Int.floor_eq_zero_iff]
  constructor <;> norm_num

lemma jsRound_intCast (n : ℤ) : jsRound ((n : K)) = n := by
  unfold jsRound
  rw [add_comm, Int.floor_add_int, floor_half, zero_add]

lemma jsRound_natCast (n : ℕ) : jsRound ((n : K)) = n := by
  have h : ((n : ℤ) : K) = (n : K) := by push_cast; rfl
  rw [← h, jsRound_intCast]

lemma lookupA_insertA_self {κ β : Type} [DecidableEq κ] (k : κ) (v : β)
    (l : List (κ × β)) : lookupA k (insertA k v l) = some v := by
  induction l with
  | nil => simp [insertA, lookupA]
  | cons hd t ih =>
      obtain ⟨k', v'⟩ := hd
      by_cases hk : k' = k
      · simp [insertA, lookupA, hk]
      · simp [insertA, lookupA, hk, ih]

end HelperLemmas

section ShortSeriesClaims

variable {K : Type} [LinearOrderedField K] [FloorRing K]

/-- C6: for every non-empty series of fewer than 3 points and every
horizon, `holtForecast` skips smoothing and returns the last value of the
series, rounded and floored at 0; in particular a 1-element series of a
natural-number count forecasts exactly that element's value. -/
theorem C6_short_series_last_value :
    (∀ (series : List K) (h alpha beta : K) (optMax optPhi : Option K) (optimize : Bool),
        1 ≤ series.length → series.length < 3 →
        holtForecast series h alpha beta optMax optPhi optimize =
          ((max 0 (jsRound (series.getD (series.length - 1) 0)) : ℤ) : K)) ∧
    (∀ (n : ℕ) (h alpha beta : K) (optMax optPhi : Option K) (optimize : Bool),
        holtForecast [(n : K)] h alpha beta optMax optPhi optimize = (n : K)) := by
  constructor
  · intro series h a b om op ob h1 h3
    unfold holtForecast
    rw [if_neg (by omega), if_pos h3]
  · intro n h a b om op ob
    unfold holtForecast
    simp only [List.length_singleton]
    rw [if_neg (by omega), if_pos (by omega)]
    simp [List.getD, jsRound_natCast]

/-- Witness for C6 at a concrete 2-element rational series. -/
theorem C6_witness :
    holtForecast [(85 : ℚ), 42] 15 (6/10) (3/10) none none true =
      ((max 0 (jsRound (([(85 : ℚ), 42]).getD (([(85 : ℚ), 42]).length - 1) 0)) : ℤ) : ℚ) :=
  (C6_short_series_last_value).1 [(85 : ℚ), 42] 15 (6/10) (3/10) none none true
    (by decide) (by decide)

end ShortSeriesClaims

section ModelManagerClaims

/-- C9: `HoltsLinearModel.update` throws exactly on a non-numeric
(`none`) or negative observation, and when it throws, the model state is
unchanged (the validation happens before any smoothing). -/
theorem C9_invalid_observation_boundary :
    ∀ (m : HoltsLinearModel) (observation : Option ℚ),
      ((m.update observation).1.isSome ↔
        observation = none ∨ ∃ x, observation = some x ∧ x < 0) ∧
      ((m.update observation).1.isSome → (m.update observation).2 = m) := by
  intro m observation
  match observation with
  | none => simp [HoltsLinearModel.update]
  | some x =>
      by_cases hx : x < 0
      · simp [HoltsLinearModel.update, hx]
      · simp [HoltsLinearModel.update, hx]

/-- Witness for C9: updating a concrete fresh model with `-1` leaves its
state unchanged. -/
theorem C9_witness :
    ((⟨1/5, 1/10, none, none, false, 0, []⟩ : HoltsLinearModel).update (some (-1))).2 =
      (⟨1/5, 1/10, none, none, false, 0, []⟩ : HoltsLinearModel) :=
  (C9_invalid_observation_boundary _ _).2 (by norm_num [HoltsLinearModel.update])

/-- C10: in the object-oriented model, a freshly constructed model stores
no trend, initialization stores trend `0`, and every `update` call
preserves the hard-clamp invariant `-10 ≤ trend ≤ 10`. -/
theorem C10_trend_hard_clamp :
    (∀ (alpha beta : ℚ) (m : HoltsLinearModel),
        freshModel alpha beta = some m → m.trend = none) ∧
    (∀ (m : HoltsLinearModel) (x : ℚ), 0 ≤ x → m.isInitialized = false →
        ((m.update (some x)).2).trend = some 0) ∧
    (∀ (m : HoltsLinearModel) (observation : Option ℚ),
        TrendOK m → TrendOK ((m.update observation).2)) := by
  refine ⟨?_, ?_, ?_⟩
  · intro a b m hm
    unfold freshModel at hm
    split_ifs at hm
    injection hm with h
    rw [← h]
  · intro m x h0 hInit
    simp [HoltsLinearModel.update, not_lt.mpr h0, hInit,
      HoltsLinearModel.initializeModel, HoltsLinearModel.addToHistory]
  · intro m observation hOK
    intro t ht
    match observation with
    | none =>
        simp only [HoltsLinearModel.update] at ht
        exact hOK t ht
    | some x =>
        by_cases hx : x < 0
        · simp only [HoltsLinearModel.update, if_pos hx] at ht
          exact hOK t ht
        · by_cases hi : m.isInitialized
          · simp [HoltsLinearModel.update, hx, hi, HoltsLinearModel.applyHoltsUpdate,
              HoltsLinearModel.addToHistory] at ht
            subst ht
            exact ⟨le_max_left _ _, max_le (by norm_num) (min_le_left _ _)⟩
          · simp [HoltsLinearModel.update, hx, hi, HoltsLinearModel.initializeModel,
              HoltsLinearModel.addToHistory] at ht
            subst ht
            norm_num

/-- Witness for C10: one concrete update preserves the trend bound. -/
theorem C10_witness :
    TrendOK (((⟨2/10, 1/10, some 5, some 0, true, 1, []⟩ : HoltsLinearModel).update
      (some 12)).2) :=
  (C10_trend_hard_clamp).2.2 _ _ (by intro t ht; simp at ht; subst ht; norm_num)

end ModelManagerClaims

section PipelineClaims

/-- C1: with a known finite capacity `C ≥ 0`, every published prediction
of the `computeOnce` pipeline lies in `[0, C]`; and the E2E scenario — a
zone of capacity 50 whose raw (unclamped) forecast is 85 (a two-point
history ending at 85, which the model forecasts unclamped) — publishes
exactly 50. -/
theorem C1_capacity_invariant :
    (∀ (series : List ℝ) (seasonalValue : Option ℝ) (C : ℝ)
        (useWinsor useLog useBlend : Bool) (h : ℝ), 0 ≤ C →
        0 ≤ computeOnePrediction series seasonalValue (some C) useWinsor useLog useBlend h ∧
        computeOnePrediction series seasonalValue (some C) useWinsor useLog useBlend h ≤ C) ∧
    computeOnePrediction [80, 85] none (some 50) false false false 15 = 50 := by
  constructor
  · intro series sv C uw ul ub h hC
    simp only [computeOnePrediction, capClamp]
    exact ⟨le_min hC (le_max_left _ _), min_le_left _ _⟩
  · simp only [computeOnePrediction, blendSeasonal, preBlendForecast, capClamp, holtForecast,
      List.length_cons, List.length_nil, List.getD, Bool.false_eq_true, if_false,
      List.getElem?_cons_succ, List.getElem?_cons_zero]
    norm_num [jsRound]

/-- Witness for C1 at capacity 50. -/
theorem C1_witness :
    0 ≤ computeOnePrediction [80, 85] none (some 50) false false false 15 ∧
    computeOnePrediction [80, 85] none (some 50) false false false 15 ≤ 50 :=
  (C1_capacity_invariant).1 [80, 85] none 50 false false false 15 (by norm_num)

/-- C7: when a seasonal baseline value is present and blending is on, the
published prediction is the capacity-clamped
`round(w*seasonal + (1-w)*trendForecast)` with `w = BLEND_WEIGHT_SHORT`
(0.3) for `steps ≤ BLEND_SWITCH_MIN` (60) and `w = BLEND_WEIGHT_LONG`
(0.6) otherwise, so horizons above the threshold weight the seasonal value
more heavily. -/
theorem C7_seasonal_blend_rule :
    (∀ (series : List ℝ) (sv : ℝ) (maxCap : Option ℝ) (useWinsor useLog : Bool) (h : ℝ),
        computeOnePrediction series (some sv) maxCap useWinsor useLog true h =
          capClamp maxCap
            ((jsRound (blendWeightFor ((max 1 (jsRound h)).toNat) * sv +
                (1 - blendWeightFor ((max 1 (jsRound h)).toNat)) *
                  preBlendForecast series maxCap useWinsor useLog
                    ((max 1 (jsRound h)).toNat)) : ℤ) : ℝ)) ∧
    (∀ steps : ℕ,
        ((steps : ℝ) ≤ BLEND_SWITCH_MIN → blendWeightFor steps = BLEND_WEIGHT_SHORT) ∧
        (BLEND_SWITCH_MIN < (steps : ℝ) → blendWeightFor steps = BLEND_WEIGHT_LONG)) ∧
    BLEND_WEIGHT_SHORT < BLEND_WEIGHT_LONG := by
  refine ⟨?_, ?_, ?_⟩
  · intro series sv maxCap uw ul h
    simp only [computeOnePrediction, blendSeasonal, if_true]
  · intro steps
    constructor
    · intro hle
      simp only [blendWeightFor, if_pos hle]
    · intro hgt
      simp only [blendWeightFor, if_neg (not_le.mpr hgt)]
  · norm_num [BLEND_WEIGHT_SHORT, BLEND_WEIGHT_LONG]

/-- Witness for C7: horizons 30 and 90 select the short and long weights. -/
theorem C7_witness :
    blendWeightFor 30 = BLEND_WEIGHT_SHORT ∧ blendWeightFor 90 = BLEND_WEIGHT_LONG :=
  ⟨((C7_seasonal_blend_rule).2.1 30).1 (by norm_num [BLEND_SWITCH_MIN]),
   ((C7_seasonal_blend_rule).2.1 90).2 (by norm_num [BLEND_SWITCH_MIN])⟩

/-- C4: with the log1p variance stabilization enabled, the published value
equals the pipeline in which `inverseLog1p` (expm1) is applied exactly
once — to the forecast produced on the log scale — and its result is then
rounded; the smoothing itself (`holtForecast`) runs on the
`transformLog1p`-transformed series (which clamps negatives to 0 before
`ln(1+x)`), with no inverse applied to any intermediate level or trend.
The second conjunct verifies that `inverseLog1p` is the exact inverse of
the (clamped) forward transform. -/
theorem C4_log1p_inverse_applied_once :
    (∀ (series : List ℝ) (seasonalValue : Option ℝ) (maxCap : Option ℝ)
        (useWinsor useBlend : Bool) (h : ℝ),
        computeOnePrediction series seasonalValue maxCap useWinsor true useBlend h =
          capClamp maxCap
            (blendSeasonal seasonalValue useBlend ((max 1 (jsRound h)).toNat)
              (max 0 ((jsRound (inverseLog1p
                (holtForecast
                  (transformLog1p
                    (if useWinsor then winsorize series WINSOR_LO WINSOR_HI else series))
                  (((max 1 (jsRound h)).toNat : ℕ) : ℝ) ALPHA BETA maxCap none
                  true)) : ℤ) : ℝ)))) ∧
    (∀ x : ℝ, inverseLog1p (Real.log (1 + max 0 x)) = max 0 x) := by
  constructor
  · intro series sv maxCap uw ub h
    simp only [computeOnePrediction, preBlendForecast, if_true]
  · intro x
    have hpos : (0 : ℝ) < 1 + max 0 x := by
      have := le_max_left (0 : ℝ) x
      linarith
    unfold inverseLog1p
    rw [Real.exp_log hpos]
    ring

end PipelineClaims

section WinsorizeClaims

variable {K : Type} [LinearOrderedField K] [FloorRing K]

lemma sorted_getD_zero_le {l : List K} (hs : List.Sorted (· ≤ ·) l) {x : K}
    (hx : x ∈ l) : l.getD 0 0 ≤ x := by
  cases l with
  | nil => exact absurd hx (List.not_mem_nil x)
  | cons a t =>
      rw [List.getD_cons_zero]
      rcases List.mem_cons.mp hx with h | h
      · exact le_of_eq h.symm
      · exact (List.sorted_cons.mp hs).1 x h

lemma getD_last_mem (l : List K) (hl : l ≠ []) : l.getD (l.length - 1) 0 ∈ l := by
  have hlen : l.length - 1 < l.length := by
    cases l with
    | nil => exact absurd rfl hl
    | cons a t => simp
  rw [List.getD_eq_getElem?_getD, List.getElem?_eq_getElem hlen]
  exact List.getElem_mem hlen

lemma le_sorted_getD_last {l : List K} (hs : List.Sorted (· ≤ ·) l) {x : K}
    (hx : x ∈ l) : x ≤ l.getD (l.length - 1) 0 := by
  induction l with
  | nil => exact absurd hx (List.not_mem_nil x)
  | cons a t ih =>
      match t with
      | [] =>
          rcases List.mem_cons.mp hx with h | h
          · exact le_of_eq h
          · exact absurd h (List.not_mem_nil x)
      | b :: t2 =>
          have hstep : (a :: b :: t2).getD ((a :: b :: t2).length - 1) 0 =
              (b :: t2).getD ((b :: t2).length - 1) 0 := by
            simp [List.getD_cons_succ]
          rw [hstep]
          have hst : List.Sorted (· ≤ ·) (b :: t2) := (List.sorted_cons.mp hs).2
          rcases List.mem_cons.mp hx with h | h
          · have hmem : (b :: t2).getD ((b :: t2).length - 1) 0 ∈ b :: t2 :=
              getD_last_mem _ (by simp)
            exact h ▸ (List.sorted_cons.mp hs).1 _ hmem
          · exact ih hst h

lemma percentile_zero (l : List K) (hl : ¬l.length = 0) :
    percentile l 0 = (List.insertionSort (· ≤ ·) l).getD 0 0 := by
  simp [percentile, hl]

lemma percentile_hundred (l : List K) (hl : ¬l.length = 0) :
    percentile l 100 = (List.insertionSort (· ≤ ·) l).getD (l.length - 1) 0 := by
  have hc : (100 : K) / 100 * ((l.length : K) - 1) = ((l.length - 1 : ℕ) : K) := by
    rw [Nat.cast_sub (Nat.one_le_iff_ne_zero.mpr hl)]
    norm_num
  simp [percentile, hl, hc, Int.floor_natCast, Int.ceil_natCast]

lemma winsorize_zero_hundred (l : List K) : winsorize l 0 100 = l := by
  by_cases hl : l.length = 0
  · simp only [winsorize, hl, if_pos]
    exact (List.length_eq_zero.mp hl).symm
  · simp only [winsorize, hl, if_neg, ite_false]
    rw [percentile_zero l hl, percentile_hundred l hl]
    have hsort : List.Sorted (· ≤ ·) (List.insertionSort (· ≤ ·) l) :=
      List.sorted_insertionSort _ l
    have hperm := List.perm_insertionSort (· ≤ ·) l
    have hlen : (List.insertionSort (· ≤ ·) l).length = l.length := hperm.length_eq
    conv_rhs => rw [← List.map_id l]
    refine List.map_congr_left ?_
    intro x hx
    have hxs : x ∈ List.insertionSort (· ≤ ·) l := (hperm.mem_iff).mpr hx
    have h1 : (List.insertionSort (· ≤ ·) l).getD 0 0 ≤ x := sorted_getD_zero_le hsort hxs
    have h2 : x ≤ (List.insertionSort (· ≤ ·) l).getD
        ((List.insertionSort (· ≤ ·) l).length - 1) 0 := le_sorted_getD_last hsort hxs
    rw [hlen] at h2
    simp only [id]
    rw [max_eq_right h1, min_eq_right h2]

/-- C3 counterexample: with the default bounds 5/95, winsorizing twice
differs from winsorizing once on the series `[0, 100]` (the first pass
yields `[5, 95]`, the second narrows it to `[9.5, 90.5]`), so winsorization
is not idempotent as claimed. -/
theorem C3_counterexample :
    winsorize (winsorize [(0 : ℚ), 100] 5 95) 5 95 ≠ winsorize [(0 : ℚ), 100] 5 95 := by
  have hc1 : ⌈(1/20 : ℚ)⌉ = 1 := by
    rw [Int.ceil_eq_iff] <;> norm_num
  have hc2 : ⌈(19/20 : ℚ)⌉ = 1 := by
    rw [Int.ceil_eq_iff] <;> norm_num
  have e1 : percentile [(0 : ℚ), 100] 5 = 5 := by
    norm_num [percentile, List.insertionSort, List.orderedInsert, hc1]
  have e2 : percentile [(0 : ℚ), 100] 95 = 95 := by
    norm_num [percentile, List.insertionSort, List.orderedInsert, hc2]
  have h1 : winsorize [(0 : ℚ), 100] 5 95 = [5, 95] := by
    norm_num [winsorize, e1, e2]
  have e3 : percentile [(5 : ℚ), 95] 5 = 19/2 := by
    norm_num [percentile, List.insertionSort, List.orderedInsert, hc1]
  have e4 : percentile [(5 : ℚ), 95] 95 = 181/2 := by
    norm_num [percentile, List.insertionSort, List.orderedInsert, hc2]
  have h2 : winsorize [(5 : ℚ), 95] 5 95 = [19/2, 181/2] := by
    norm_num [winsorize, e3, e4]
  rw [h1, h2]
  intro h
  simp only [List.cons.injEq] at h
  norm_num at h

/-- C3 (amended): winsorization is idempotent when the percentile ranks
fall exactly on the extreme order statistics — in particular with bounds
`(0, 100)` a single pass is already the identity, hence a second pass
changes nothing; with interior interpolated bounds such as the default
`(5, 95)` a second application can narrow the data further (see the
counterexample), so idempotence fails in general. -/
theorem C3_amended_idempotent_at_extreme_bounds :
    ∀ (l : List K), winsorize (winsorize l 0 100) 0 100 = winsorize l 0 100 := by
  intro l
  rw [winsorize_zero_hundred (winsorize l 0 100)]

end WinsorizeClaims

section CacheClaims

lemma getCachedPredictions_cons (kv : ℤ × CacheEntry) (t : List (ℤ × CacheEntry))
    (now maxAge : ℚ) :
    getCachedPredictions (kv :: t) now maxAge =
      if (now - kv.2.timestamp) / 60000 ≤ maxAge then
        some ⟨kv.2.timestamp, kv.2.predictions,
          ((jsRound ((now - kv.2.timestamp) / 60000 * 100) : ℤ) : ℚ) / 100⟩
      else getCachedPredictions t now maxAge := by
  by_cases hkv : (now - kv.2.timestamp) / 60000 ≤ maxAge
  · rw [if_pos hkv]
    unfold getCachedPredictions
    rw [List.find?_cons]
    simp only [decide_eq_true hkv]
  · rw [if_neg hkv]
    unfold getCachedPredictions
    rw [List.find?_cons]
    simp only [decide_eq_false hkv]

/-- C2 counterexample: a reachable cache holding an older bucket
(timestamp 0 ms) and a fresher bucket (timestamp 300000 ms), queried at
360000 ms with a 10-minute threshold, returns the bucket of age 6 minutes
even though a qualifying bucket of age 1 minute exists — so
`getCachedPredictions` does not return the freshest qualifying bucket. -/
theorem C2_counterexample :
    ∃ r, getCachedPredictions
        (updatePredictionCache (updatePredictionCache [] [] 0) [] 300000) 360000 10 =
        some r ∧
      r.timestamp = 0 ∧
      ∃ kv ∈ updatePredictionCache (updatePredictionCache [] [] 0) [] 300000,
        (360000 - kv.2.timestamp) / 60000 ≤ 10 ∧ r.timestamp < kv.2.timestamp := by
  have hc : updatePredictionCache (updatePredictionCache [] [] 0) [] 300000 =
      [(0, ⟨0, []⟩), (1, ⟨300000, []⟩)] := by
    norm_num [updatePredictionCache, generateCacheKey, groupPredictions, insertA]
  refine ⟨⟨0, [], 6⟩, ?_, rfl, (1, ⟨300000, []⟩), ?_, ?_, ?_⟩
  · rw [hc, getCachedPredictions_cons]
    norm_num [jsRound]
  · rw [hc]
    simp
  · norm_num
  · norm_num

/-- C2 (amended): `getCachedPredictions(maxAgeMinutes)` returns the
first-inserted (oldest), not the freshest, cached bucket whose age is at
most the threshold — together with its age rounded to 2 decimals — and
returns `null` exactly when no bucket is fresh enough. -/
theorem C2_amended_first_inserted_fresh_bucket :
    ∀ (cache : List (ℤ × CacheEntry)) (now maxAge : ℚ),
      (getCachedPredictions cache now maxAge = none ↔
        ∀ kv ∈ cache, ¬((now - kv.2.timestamp) / 60000 ≤ maxAge)) ∧
      (∀ r, getCachedPredictions cache now maxAge = some r →
        ∃ l1 kv l2, cache = l1 ++ kv :: l2 ∧
          (now - kv.2.timestamp) / 60000 ≤ maxAge ∧
          (∀ kv' ∈ l1, ¬((now - kv'.2.timestamp) / 60000 ≤ maxAge)) ∧
          r = ⟨kv.2.timestamp, kv.2.predictions,
               ((jsRound ((now - kv.2.timestamp) / 60000 * 100) : ℤ) : ℚ) / 100⟩) := by
  intro cache now maxAge
  induction cache with
  | nil =>
      constructor
      · simp [getCachedPredictions]
      · intro r hr
        simp [getCachedPredictions] at hr
  | cons kv t ih =>
      by_cases hkv : (now - kv.2.timestamp) / 60000 ≤ maxAge
      · rw [getCachedPredictions_cons, if_pos hkv]
        constructor
        · simp [List.forall_mem_cons, hkv]
        · intro r hr
          rw [Option.some.injEq] at hr
          exact ⟨[], kv, t, rfl, hkv, by simp, hr.symm⟩
      · have hkv2 := not_le.mp hkv
        rw [getCachedPredictions_cons, if_neg hkv]
        constructor
        · rw [ih.1]
          simp [List.forall_mem_cons, hkv2]
        · intro r hr
          obtain ⟨l1, kv', l2, heq, hc', hall, hr'⟩ := ih.2 r hr
          refine ⟨kv :: l1, kv', l2, by rw [heq]; rfl, hc', ?_, hr'⟩
          intro kv2 hkv2
          rcases List.mem_cons.mp hkv2 with h | h
          · exact h ▸ hkv
          · exact hall kv2 h

/-- Witness for the amended C2 on the concrete two-bucket cache. -/
theorem C2_amended_witness :
    ∃ l1 kv l2,
      ([((0 : ℤ), (⟨0, []⟩ : CacheEntry)), (1, ⟨300000, []⟩)] :
          List (ℤ × CacheEntry)) = l1 ++ kv :: l2 ∧
      ((360000 : ℚ) - kv.2.timestamp) / 60000 ≤ 10 ∧
      (∀ kv' ∈ l1, ¬(((360000 : ℚ) - kv'.2.timestamp) / 60000 ≤ 10)) ∧
      (⟨0, [], 6⟩ : CacheHit) = ⟨kv.2.timestamp, kv.2.predictions,
        ((jsRound (((360000 : ℚ) - kv.2.timestamp) / 60000 * 100) : ℤ) : ℚ) / 100⟩ :=
  (C2_amended_first_inserted_fresh_bucket
      [(0, ⟨0, []⟩), (1, ⟨300000, []⟩)] 360000 10).2 ⟨0, [], 6⟩ (by
    rw [getCachedPredictions_cons]
    norm_num [jsRound])

end CacheClaims

section AutoRegisterClaim

lemma getOptimalParameters_alpha_mem (bt : Option String) (cap : ℚ) :
    1/10 ≤ (getOptimalParameters bt cap).1 ∧ (getOptimalParameters bt cap).1 ≤ 4/10 := by
  unfold getOptimalParameters
  exact ⟨le_max_left _ _, max_le (by norm_num) (min_le_left _ _)⟩

lemma getOptimalParameters_beta_mem (bt : Option String) (cap : ℚ) :
    5/100 ≤ (getOptimalParameters bt cap).2 ∧ (getOptimalParameters bt cap).2 ≤ 3/10 := by
  unfold getOptimalParameters
  exact ⟨le_max_left _ _, max_le (by norm_num) (min_le_left _ _)⟩

lemma freshModel_getOptimal (bt : Option String) (cap : ℚ) :
    freshModel (getOptimalParameters bt cap).1 (getOptimalParameters bt cap).2 =
      some ⟨(getOptimalParameters bt cap).1, (getOptimalParameters bt cap).2,
            none, none, false, 0, []⟩ := by
  obtain ⟨ha1, ha2⟩ := getOptimalParameters_alpha_mem bt cap
  obtain ⟨hb1, hb2⟩ := getOptimalParameters_beta_mem bt cap
  unfold freshModel
  rw [if_neg (by push_neg; constructor <;> linarith),
    if_neg (by push_neg; constructor <;> linarith)]

lemma initializeBuilding_eq (mgr : ModelManager) (b : BuildingConfig) :
    mgr.initializeBuilding b =
      some { models := insertA b.id ⟨(getOptimalParameters b.btype b.capacity).1,
               (getOptimalParameters b.btype b.capacity).2, none, none, false, 0, []⟩
               mgr.models,
             buildingConfigs := insertA b.id b mgr.buildingConfigs } := by
  unfold ModelManager.initializeBuilding
  dsimp only
  rw [freshModel_getOptimal]

/-- C8: updating the store with a valid observation for a zone it does not
know (no model, no catalog entry) never throws: the zone is auto-registered
from the fallback configuration (type `academic`, capacity 200), the update
is applied, and a subsequent `getPrediction(zone, 15)` succeeds. -/
theorem C8_unknown_zone_auto_register :
    ∀ (mgr : ModelManager) (z : String) (c : ℚ),
      lookupA z mgr.models = none → lookupA z mgr.buildingConfigs = none → 0 ≤ c →
      (mgr.updateModel z (some c)).1 = none ∧
      ∃ p, ((mgr.updateModel z (some c)).2).getPrediction z 15 = .ok p := by
  intro mgr z c hm hc h0
  have h0' : ¬(c < 0) := not_lt.mpr h0
  have hupd : mgr.updateModel z (some c) =
      (((⟨(getOptimalParameters (some "academic") 200).1,
          (getOptimalParameters (some "academic") 200).2,
          none, none, false, 0, []⟩ : HoltsLinearModel).update (some c)).1,
       { models := insertA z
           (((⟨(getOptimalParameters (some "academic") 200).1,
               (getOptimalParameters (some "academic") 200).2,
               none, none, false, 0, []⟩ : HoltsLinearModel).update (some c)).2)
           (insertA z
             (⟨(getOptimalParameters (some "academic") 200).1,
               (getOptimalParameters (some "academic") 200).2,
               none, none, false, 0, []⟩ : HoltsLinearModel) mgr.models),
         buildingConfigs := insertA z (fallbackConfigFor z) mgr.buildingConfigs }) := by
    rw [ModelManager.updateModel, hm]
    dsimp only
    rw [hc, Option.getD_none, initializeBuilding_eq]
    dsimp only [fallbackConfigFor]
    rw [lookupA_insertA_self]
  have hm2 : ((⟨(getOptimalParameters (some "academic") 200).1,
      (getOptimalParameters (some "academic") 200).2,
      none, none, false, 0, []⟩ : HoltsLinearModel).update (some c)) =
      (none, ⟨(getOptimalParameters (some "academic") 200).1,
        (getOptimalParameters (some "academic") 200).2,
        some c, some 0, true, 1, [(c, some c, some 0)]⟩) := by
    simp [HoltsLinearModel.update, h0', HoltsLinearModel.initializeModel,
      HoltsLinearModel.addToHistory]
  constructor
  · rw [hupd]
    dsimp only
    rw [hm2]
  · rw [hupd]
    dsimp only
    rw [hm2]
    dsimp only
    rw [ModelManager.getPrediction, lookupA_insertA_self]
    dsimp only
    rw [HoltsLinearModel.forecast]
    rw [if_neg (by norm_num), if_neg (by norm_num)]
    dsimp only
    rw [lookupA_insertA_self]
    dsimp only [fallbackConfigFor]
    rw [if_neg (by norm_num)]
    exact ⟨_, rfl⟩

/-- Witness for C8: submitting an observation for unregistered zone `Z99`
on an empty store succeeds and a 15-minute prediction follows. -/
theorem C8_witness :
    ((⟨[], []⟩ : ModelManager).updateModel "Z99" (some 7)).1 = none ∧
    ∃ p, (((⟨[], []⟩ : ModelManager).updateModel "Z99" (some 7)).2).getPrediction "Z99" 15 =
      .ok p :=
  C8_unknown_zone_auto_register ⟨[], []⟩ "Z99" 7 rfl rfl (by norm_num)

end AutoRegisterClaim

section GridSearchClaim

variable {K : Type} [LinearOrderedField K] [FloorRing K]

lemma holtMkBest_sse (data : List K) (c : K × K × K) :
    (holtMkBest data c).sse = some (sseOf data c) := rfl

lemma holtStep_sse_le (data : List K) (b : HoltBest K) (c : K × K × K) (s : K)
    (hb : b.sse = some s) :
    ∃ s2, (holtStep data b c).sse = some s2 ∧ s2 ≤ s := by
  by_cases hlt : sseOf data c < s
  · refine ⟨sseOf data c, ?_, le_of_lt hlt⟩
    simp [holtStep, beats, hb, hlt, holtMkBest_sse]
  · refine ⟨s, ?_, le_refl s⟩
    simp [holtStep, beats, hb, hlt]

lemma holtStep_sse_le_self (data : List K) (b : HoltBest K) (c : K × K × K) :
    ∃ s1, (holtStep data b c).sse = some s1 ∧ s1 ≤ sseOf data c := by
  cases hbs : b.sse with
  | none =>
      refine ⟨sseOf data c, ?_, le_refl _⟩
      simp [holtStep, beats, hbs, holtMkBest_sse]
  | some y =>
      by_cases hlt : sseOf data c < y
      · refine ⟨sseOf data c, ?_, le_refl _⟩
        simp [holtStep, beats, hbs, hlt, holtMkBest_sse]
      · refine ⟨y, ?_, not_lt.mp hlt⟩
        simp [holtStep, beats, hbs, hlt]

lemma foldl_holtStep_sse_mono (data : List K) :
    ∀ (L : List (K × K × K)) (b : HoltBest K) (s : K), b.sse = some s →
      ∃ s2, (L.foldl (holtStep data) b).sse = some s2 ∧ s2 ≤ s := by
  intro L
  induction L with
  | nil => intro b s hb; exact ⟨s, hb, le_refl s⟩
  | cons c t ih =>
      intro b s hb
      obtain ⟨s1, hs1, hle1⟩ := holtStep_sse_le data b c s hb
      obtain ⟨s2, hs2, hle2⟩ := ih (holtStep data b c) s1 hs1
      exact ⟨s2, by simpa using hs2, le_trans hle2 hle1⟩

lemma foldl_holtStep_le_all (data : List K) :
    ∀ (L : List (K × K × K)) (b : HoltBest K) (c : K × K × K), c ∈ L →
      ∃ s2, (L.foldl (holtStep data) b).sse = some s2 ∧ s2 ≤ sseOf data c := by
  intro L
  induction L with
  | nil => intro b c hc; exact absurd hc (List.not_mem_nil c)
  | cons u t ih =>
      intro b c hc
      rw [List.foldl_cons]
      rcases List.mem_cons.mp hc with h | h
      · subst h
        obtain ⟨s1, h1, hle⟩ := holtStep_sse_le_self data b c
        obtain ⟨s2, h2, hle2⟩ := foldl_holtStep_sse_mono data t _ s1 h1
        exact ⟨s2, h2, le_trans hle2 hle⟩
      · exact ih (holtStep data b u) c h

lemma foldl_holtStep_result (data : List K) :
    ∀ (L : List (K × K × K)) (b : HoltBest K),
      L.foldl (holtStep data) b = b ∨
        ∃ c ∈ L, L.foldl (holtStep data) b = holtMkBest data c := by
  intro L
  induction L with
  | nil => intro b; exact Or.inl rfl
  | cons u t ih =>
      intro b
      rw [List.foldl_cons]
      by_cases hb : beats (sseOf data u) b.sse = true
      · have hstep : holtStep data b u = holtMkBest data u := by
          simp [holtStep, hb]
        rw [hstep]
        rcases ih (holtMkBest data u) with h | ⟨c, hc, h⟩
        · exact Or.inr ⟨u, List.mem_cons_self u t, h⟩
        · exact Or.inr ⟨c, List.mem_cons_of_mem u hc, h⟩
      · have hstep : holtStep data b u = b := by
          simp [holtStep, hb]
        rw [hstep]
        rcases ih b with h | ⟨c, hc, h⟩
        · exact Or.inl h
        · exact Or.inr ⟨c, List.mem_cons_of_mem u hc, h⟩

lemma jsUniq_head_mem (x : K) (xs : List K) : x ∈ jsUniq (x :: xs) := by
  simp [jsUniq, jsUniqAux]

lemma holtTriples_mem_exists (alpha beta : K) :
    ∃ c, c ∈ holtTriples alpha beta (none : Option K) := by
  refine ⟨(clip01 alpha, clip01 beta, 9/10), ?_⟩
  unfold holtTriples
  refine List.mem_flatMap.mpr ⟨clip01 alpha, jsUniq_head_mem _ _, ?_⟩
  refine List.mem_flatMap.mpr ⟨clip01 beta, jsUniq_head_mem _ _, ?_⟩
  refine List.mem_map.mpr ⟨9/10, ?_, rfl⟩
  simp [phiCandidatesOf]

/-- C5: with at least 6 history points (and default options) the grid
search evaluates the full deduplicated candidate product
(`holtTriples`) and the returned record is built from a candidate triple of
minimum SSE among all candidates; with fewer than 6 points the search is
skipped and the clipped provided coefficients are used with `phi = 1.0`
(and `clip01` is the identity on coefficients already in `[0.01, 0.99]`,
so in-range provided coefficients are used as given). -/
theorem C5_hyperparameter_grid_search :
    (∀ (data : List K) (alpha beta : K),
        6 ≤ data.length →
        ∃ c ∈ holtTriples alpha beta (none : Option K),
          holtBestFor data alpha beta none true = holtMkBest data c ∧
          ∀ c2 ∈ holtTriples alpha beta (none : Option K),
            sseOf data c ≤ sseOf data c2) ∧
    (∀ (data : List K) (alpha beta : K),
        data.length < 6 →
        holtBestFor data alpha beta none true =
          holtMkBest data (clip01 alpha, clip01 beta, 1)) ∧
    (∀ v : K, 1/100 ≤ v → v ≤ 99/100 → clip01 v = v) := by
  refine ⟨?_, ?_, ?_⟩
  · intro data alpha beta hlen
    have hbf : holtBestFor data alpha beta none true =
        (holtTriples alpha beta none).foldl (holtStep data) ⟨none, 0, 0, alpha, beta, 1⟩ := by
      unfold holtBestFor
      rw [if_pos (by simp [hlen])]
    rcases foldl_holtStep_result data (holtTriples alpha beta none)
        ⟨none, 0, 0, alpha, beta, 1⟩ with h | ⟨c, hc, h⟩
    · obtain ⟨c0, hc0⟩ := holtTriples_mem_exists alpha beta
      obtain ⟨s2, hs2, _⟩ := foldl_holtStep_le_all data _
        ⟨none, 0, 0, alpha, beta, 1⟩ c0 hc0
      rw [h] at hs2
      simp at hs2
    · refine ⟨c, hc, by rw [hbf]; exact h, ?_⟩
      intro c2 hc2
      obtain ⟨s2, hs2, hle⟩ := foldl_holtStep_le_all data _
        ⟨none, 0, 0, alpha, beta, 1⟩ c2 hc2
      rw [h] at hs2
      have he : s2 = sseOf data c := by
        rw [holtMkBest_sse] at hs2
        simp at hs2
        exact hs2.symm
      exact he ▸ hle
  · intro data alpha beta hlen
    have hno : ¬(6 ≤ data.length) := by omega
    unfold holtBestFor
    rw [if_neg (by simp [hno])]
    simp [phiCandidatesOf]
  · intro v h1 h2
    unfold clip01
    rw [min_eq_right h2, max_eq_right h1]

/-- Witness for C5 on a concrete 6-point rational history. -/
theorem C5_witness :
    ∃ c ∈ holtTriples (6/10 : ℚ) (3/10) (none : Option ℚ),
      holtBestFor [(1 : ℚ), 2, 3, 4, 5, 6] (6/10) (3/10) none true =
        holtMkBest [(1 : ℚ), 2, 3, 4, 5, 6] c ∧
      ∀ c2 ∈ holtTriples (6/10 : ℚ) (3/10) (none : Option ℚ),
        sseOf [(1 : ℚ), 2, 3, 4, 5, 6] c ≤ sseOf [(1 : ℚ), 2, 3, 4, 5, 6] c2 :=
  (C5_hyperparameter_grid_search).1 [1, 2, 3, 4, 5, 6] (6/10) (3/10) (by decide)

end GridSearchClaim
